import Mathlib

set_option maxRecDepth 8192

/-!
Shallow embedding of the AudioSocket transport core of the asteramisk
repository (`asteramisk/internal/audiosocket_connection.py` and
`asteramisk/internal/audiosocket.py`).  Bytes are modelled as `Nat`,
byte strings as `List Nat`, the asyncio queues as Lean lists (oldest
element first), and the per-connection mutable attributes as explicit
state records.  Each definition mirrors one Python function; branch
structure follows the source.
-/

namespace Asteramisk

/-- A byte value. -/
abbrev Byte := Nat

/-- Message type bytes from `types_struct`. -/
def typeUuid : Byte := 0x01

/-- AUDIO message type byte (`types.audio = b'\x10'`). -/
def typeAudio : Byte := 0x10

/-- SILENCE message type byte (`types.silence = b'\x02'`). -/
def typeSilence : Byte := 0x02

/-- DTMF message type byte (`types.dtmf = b'\x03'`). -/
def typeDtmf : Byte := 0x03

/-- HANGUP message type byte (`types.hangup = b'\x00'`). -/
def typeHangup : Byte := 0x00

/-- ERROR message type byte (`types.error = b'\xff'`). -/
def typeErr : Byte := 0xff

/-- Python's `n.to_bytes(2, 'big')`. -/
def toBytes2BE (n : Nat) : List Byte := [n / 256 % 256, n % 256]

/-- `PCM_SIZE = (320).to_bytes(2, 'big')`. -/
def pcmSizeBytes : List Byte := toBytes2BE 320

/-- `_split_data(data)`: below 3 bytes return `(b'\x00', 0, bytes(320))`;
otherwise the first byte, the 2-byte big-endian length field, and every
remaining byte of the received chunk as payload. -/
def splitData (data : List Byte) : Byte × Nat × List Byte :=
  if data.length < 3 then (typeHangup, 0, List.replicate 320 0)
  else (data.headI, 256 * data.getD 1 0 + data.getD 2 0, data.drop 3)

/-- The action the receive loop takes for one dispatched frame. -/
inductive ProcAction where
  | audio (payload : List Byte)
  | dtmf (payload : List Byte)
  | errorFrame (payload : List Byte)
  | uuidFrame (payload : List Byte)
  | unknown (typeByte : Byte) (payload : List Byte)
  deriving DecidableEq, Repr

/-- The type-byte dispatch chain of `_process`: `audio`, `dtmf`, `error`,
`uuid`, else log an unknown type byte and continue. -/
def dispatch (typeByte : Byte) (payload : List Byte) : ProcAction :=
  if typeByte = typeAudio then .audio payload
  else if typeByte = typeDtmf then .dtmf payload
  else if typeByte = typeErr then .errorFrame payload
  else if typeByte = typeUuid then .uuidFrame payload
  else .unknown typeByte payload

/-- Result of one receive-loop iteration: leave the loop or act on a frame. -/
inductive StepResult where
  | halt
  | step (action : ProcAction)
  deriving DecidableEq, Repr

/-- One iteration of the `_process` receive loop: `data` is the chunk
returned by `sock_recv` (`none` models a caught `ConnectionResetError`,
which leaves `data = None`).  `if not data: break` exits on `none` and on
an empty chunk; otherwise the chunk is split and dispatched. -/
def processStep (data : Option (List Byte)) : StepResult :=
  match data with
  | none => .halt
  | some [] => .halt
  | some d => .step (dispatch (splitData d).1 (splitData d).2.2)

/-- The mutable transmit-side attributes of `AudioSocketConnectionAsync`:
`_tx_q` (oldest chunk first) and `_tx_extra_data`. -/
structure TxState where
  queue : List (List Byte)
  extra : List Byte
  deriving DecidableEq, Repr

/-- The transmit state right after `__create__`: empty queue, empty carry. -/
def txInit : TxState := ⟨[], []⟩

/-- The `for i in range(0, len(audio), 320)` loop of `_write_to_tx_queue`,
entered when `len(audio) > 320`: full 320-byte slices are enqueued in order;
a final short slice becomes `_tx_extra_data` and the loop breaks.  Returns
(chunks enqueued, carry left behind). -/
def txChunkLoop (audio : List Byte) : List (List Byte) × List Byte :=
  if h : 320 < audio.length then
    let rest := txChunkLoop (audio.drop 320)
    (audio.take 320 :: rest.1, rest.2)
  else if audio.length < 320 then ([], audio)
  else ([audio], [])
termination_by audio.length
decreasing_by simp; omega

/-- `_write_to_tx_queue(audio)`: prepend the carried `_tx_extra_data`, then
either run the chunking loop (`> 320`), store everything as carry (`< 320`),
or enqueue the exact 320-byte block. -/
def writeToTxQueue (st : TxState) (data : List Byte) : TxState :=
  let audio := st.extra ++ data
  if 320 < audio.length then
    let r := txChunkLoop audio
    { queue := st.queue ++ r.1, extra := r.2 }
  else if audio.length < 320 then
    { queue := st.queue, extra := audio }
  else
    { queue := st.queue ++ [audio], extra := [] }

/-- A sequence of `write()` calls on a connection with no resampler active:
each one goes through `_write_to_tx_queue`. -/
def writesToTx (st : TxState) : List (List Byte) → TxState
  | [] => st
  | d :: ds => writesToTx (writeToTxQueue st d) ds

theorem txChunkLoop_spec (audio : List Byte) :
    (txChunkLoop audio).1.flatten ++ (txChunkLoop audio).2 = audio
    ∧ (txChunkLoop audio).2.length < 320
    ∧ ∀ c ∈ (txChunkLoop audio).1, c.length = 320 := by
  induction audio using txChunkLoop.induct with
  | case1 audio h ih =>
    rw [txChunkLoop]
    simp only [dif_pos h, List.flatten_cons, List.mem_cons]
    obtain ⟨h1, h2, h3⟩ := ih
    refine ⟨?_, h2, ?_⟩
    · rw [List.append_assoc, h1, List.take_append_drop]
    · rintro c (rfl | hc)
      · simp; omega
      · exact h3 c hc
  | case2 audio h hlt =>
    rw [txChunkLoop, dif_neg h, if_pos hlt]
    exact ⟨rfl, hlt, by simp⟩
  | case3 audio h hge =>
    rw [txChunkLoop, dif_neg h, if_neg hge]
    refine ⟨by simp, by norm_num, ?_⟩
    intro c hc
    rw [List.mem_singleton] at hc
    subst hc
    omega

theorem writeToTxQueue_spec (st : TxState) (d : List Byte) :
    (writeToTxQueue st d).queue.flatten ++ (writeToTxQueue st d).extra
      = st.queue.flatten ++ (st.extra ++ d)
    ∧ (writeToTxQueue st d).extra.length < 320
    ∧ ∀ c ∈ (writeToTxQueue st d).queue, c ∈ st.queue ∨ c.length = 320 := by
  unfold writeToTxQueue
  by_cases h1 : 320 < (st.extra ++ d).length
  · obtain ⟨s1, s2, s3⟩ := txChunkLoop_spec (st.extra ++ d)
    simp only [if_pos h1]
    refine ⟨?_, s2, ?_⟩
    · rw [List.flatten_append, List.append_assoc, s1]
    · intro c hc
      rcases List.mem_append.mp hc with hc | hc
      · exact Or.inl hc
      · exact Or.inr (s3 c hc)
  · by_cases h2 : (st.extra ++ d).length < 320
    · simp only [if_neg h1, if_pos h2]
      exact ⟨by trivial, h2, fun c hc => Or.inl hc⟩
    · simp only [if_neg h1, if_neg h2]
      refine ⟨by simp, by simp, ?_⟩
      intro c hc
      rcases List.mem_append.mp hc with hc | hc
      · exact Or.inl hc
      · rcases List.mem_singleton.mp hc with rfl
        exact Or.inr (by omega)

theorem writesToTx_inv (ws : List (List Byte)) (st : TxState)
    (h : st.extra.length < 320) :
    (writesToTx st ws).queue.flatten ++ (writesToTx st ws).extra
      = st.queue.flatten ++ st.extra ++ ws.flatten
    ∧ (writesToTx st ws).extra.length < 320
    ∧ ∀ c ∈ (writesToTx st ws).queue, c ∈ st.queue ∨ c.length = 320 := by
  induction ws generalizing st with
  | nil => exact ⟨by simp [writesToTx], h, fun c hc => Or.inl hc⟩
  | cons d ds ih =>
    obtain ⟨s1, s2, s3⟩ := writeToTxQueue_spec st d
    obtain ⟨i1, i2, i3⟩ := ih (writeToTxQueue st d) s2
    refine ⟨?_, i2, ?_⟩
    · have e : writesToTx st (d :: ds) = writesToTx (writeToTxQueue st d) ds := rfl
      rw [e, i1, s1, List.flatten_cons]
      simp [List.append_assoc]
    · intro c hc
      rcases i3 c hc with hc' | hc'
      · rcases s3 c hc' with hc'' | hc''
        · exact Or.inl hc''
        · exact Or.inr hc''
      · exact Or.inr hc'

/-- The drop-oldest admission of `_process` for an inbound AUDIO payload:
`if self._rx_q.full(): get_nowait(); put(payload)`.  `_rx_q` is
`asyncio.Queue(500)`, whose `full()` is `qsize() >= 500`; `get_nowait`
removes the oldest (front) element. -/
def rxEnqueue (q : List (List Byte)) (payload : List Byte) : List (List Byte) :=
  if 500 ≤ q.length then q.drop 1 ++ [payload] else q ++ [payload]

end Asteramisk

namespace Asteramisk

/-- C1: with no resampling stage active, the chunks placed on `_tx_q` by a
sequence of `write()` calls, concatenated in order, equal the concatenation
of all written bytes minus a carry of at most 319 bytes held in
`_tx_extra_data` (which the next `write()` prefixes onto its data): no byte
is reordered or lost. -/
theorem write_chunks_concat (ws : List (List Byte)) :
    (writesToTx txInit ws).queue.flatten ++ (writesToTx txInit ws).extra
      = ws.flatten
    ∧ (writesToTx txInit ws).extra.length ≤ 319 := by
  obtain ⟨h1, h2, _⟩ := writesToTx_inv ws txInit (by norm_num [txInit])
  refine ⟨?_, by omega⟩
  simpa [txInit] using h1

/-- C2: when the 500-slot inbound queue already holds 500 frames and an
AUDIO frame arrives, the oldest frame is evicted and the new one admitted,
leaving exactly 500 frames; in general one receive-loop admission never
pushes the queue beyond its 500-frame capacity. -/
theorem rx_drop_oldest (q : List (List Byte)) (p : List Byte)
    (h : q.length ≤ 500) :
    (rxEnqueue q p).length ≤ 500
    ∧ (q.length = 500 →
        rxEnqueue q p = q.drop 1 ++ [p] ∧ (rxEnqueue q p).length = 500) := by
  unfold rxEnqueue
  by_cases hf : 500 ≤ q.length
  · rw [if_pos hf]
    have hq : q.length = 500 := by omega
    constructor
    · simp [hq]
    · intro _
      exact ⟨rfl, by simp [hq]⟩
  · rw [if_neg hf]
    exact ⟨by simp; omega, fun h500 => absurd (le_of_eq h500.symm) hf⟩

/-- Witness for C2 at a concrete full queue of 500 empty payloads. -/
theorem rx_drop_oldest_witness :
    (rxEnqueue (List.replicate 500 ([] : List Byte)) [7]).length ≤ 500
    ∧ ((List.replicate 500 ([] : List Byte)).length = 500 →
        rxEnqueue (List.replicate 500 ([] : List Byte)) [7]
          = (List.replicate 500 ([] : List Byte)).drop 1 ++ [[7]]
        ∧ (rxEnqueue (List.replicate 500 ([] : List Byte)) [7]).length = 500) :=
  rx_drop_oldest (List.replicate 500 []) [7]
    (le_of_eq (List.length_replicate 500 []))

/-- C3 counterexample: a received chunk of fewer than 3 bytes decodes to
type byte `0x00` (HANGUP), which the receive loop dispatches to its
unknown-type branch, not to the AUDIO branch the claim names. -/
theorem short_chunk_not_audio_cex :
    processStep (some [0x42])
      = StepResult.step (ProcAction.unknown typeHangup (List.replicate 320 0))
    ∧ processStep (some [0x42])
      ≠ StepResult.step (ProcAction.audio (List.replicate 320 0)) := by
  constructor
  · rfl
  · intro hEq
    have : ProcAction.unknown typeHangup (List.replicate 320 0)
        = ProcAction.audio (List.replicate 320 0) := by
      have h0 : processStep (some [0x42])
          = StepResult.step (ProcAction.unknown typeHangup (List.replicate 320 0)) := rfl
      rw [h0] at hEq
      exact StepResult.step.inj hEq
    exact ProcAction.noConfusion this

/-- C3 amended: a nonempty received chunk shorter than 3 bytes decodes,
without raising, to `(0x00, 0, bytes(320))` — 320 zero bytes of silence —
but `0x00` is the HANGUP type byte, not AUDIO (`0x10`), so the receive loop
handles it in its unknown-type branch (logging a warning) and the silence
payload is never enqueued as audio. -/
theorem short_chunk_silence (d : List Byte) (h1 : d ≠ []) (h2 : d.length < 3) :
    splitData d = (typeHangup, 0, List.replicate 320 0)
    ∧ processStep (some d)
      = StepResult.step (ProcAction.unknown typeHangup (List.replicate 320 0)) := by
  have hs : splitData d = (typeHangup, 0, List.replicate 320 0) := by
    unfold splitData
    rw [if_pos h2]
  refine ⟨hs, ?_⟩
  match d, h1 with
  | x :: xs, _ =>
    show StepResult.step (dispatch (splitData (x :: xs)).1 (splitData (x :: xs)).2.2) = _
    rw [hs]
    rfl

/-- Witness for C3 amended at the one-byte chunk `[0x42]`. -/
theorem short_chunk_silence_witness :
    splitData [0x42] = (typeHangup, 0, List.replicate 320 0)
    ∧ processStep (some [0x42])
      = StepResult.step (ProcAction.unknown typeHangup (List.replicate 320 0)) :=
  short_chunk_silence [0x42] (by simp) (by simp)

/-- C4 counterexample: a HANGUP frame `b'\x00\x00\x00'` (type `0x00`,
length 0) does not stop the receive loop — `_process` has no HANGUP branch,
so the frame falls to the unknown-type branch and the loop continues. -/
theorem hangup_frame_cex :
    processStep (some [0x00, 0x00, 0x00])
      = StepResult.step (ProcAction.unknown typeHangup [])
    ∧ processStep (some [0x00, 0x00, 0x00]) ≠ StepResult.halt := by
  refine ⟨rfl, ?_⟩
  intro hEq
  have h0 : processStep (some [0x00, 0x00, 0x00])
      = StepResult.step (ProcAction.unknown typeHangup []) := rfl
  rw [h0] at hEq
  exact StepResult.noConfusion hEq

/-- C4 amended: an inbound frame whose type byte is HANGUP (`0x00`) does not
stop the receive loop; it is dispatched to the unknown-type branch, which
logs and continues.  The loop exits only when the socket read yields no
data — an empty read, or `None` after a caught connection reset. -/
theorem hangup_frame_continues (d : List Byte) (h1 : d ≠ [])
    (h2 : d.headI = typeHangup) :
    (∃ p, processStep (some d)
      = StepResult.step (ProcAction.unknown typeHangup p))
    ∧ processStep (some d) ≠ StepResult.halt
    ∧ processStep none = StepResult.halt
    ∧ processStep (some []) = StepResult.halt := by
  have key : ∃ p, processStep (some d)
      = StepResult.step (ProcAction.unknown typeHangup p) := by
    match d, h1 with
    | x :: xs, _ =>
      show ∃ p, StepResult.step
          (dispatch (splitData (x :: xs)).1 (splitData (x :: xs)).2.2) = _
      by_cases hlen : (x :: xs).length < 3
      · refine ⟨List.replicate 320 0, ?_⟩
        unfold splitData
        rw [if_pos hlen]
        rfl
      · have hx : x = typeHangup := by simpa [List.headI] using h2
        refine ⟨(x :: xs).drop 3, ?_⟩
        unfold splitData
        rw [if_neg hlen]
        subst hx
        rfl
  obtain ⟨p, hp⟩ := key
  refine ⟨⟨p, hp⟩, ?_, rfl, rfl⟩
  rw [hp]
  exact fun hEq => StepResult.noConfusion hEq

/-- Witness for C4 amended at the wire HANGUP frame `[0,0,0]`. -/
theorem hangup_frame_continues_witness :
    (∃ p, processStep (some [0x00, 0x00, 0x00])
      = StepResult.step (ProcAction.unknown typeHangup p))
    ∧ processStep (some [0x00, 0x00, 0x00]) ≠ StepResult.halt
    ∧ processStep none = StepResult.halt
    ∧ processStep (some []) = StepResult.halt :=
  hangup_frame_continues [0x00, 0x00, 0x00] (by simp) rfl

/-- C5 counterexample: a chunk holding the well-formed DTMF frame
`[3, 0, 1, 53]` followed by three further bytes decodes with length field 1
but a 4-byte payload — the decoder consumes the whole received chunk, not
`1 + 2 + length` bytes, so the decoded payload length differs from the
length field. -/
theorem frame_length_cex :
    (splitData [3, 0, 1, 53, 0, 0, 0]).2.1 = 1
    ∧ (splitData [3, 0, 1, 53, 0, 0, 0]).2.2.length = 4
    ∧ (splitData [3, 0, 1, 53, 0, 0, 0]).2.2.length
      ≠ (splitData [3, 0, 1, 53, 0, 0, 0]).2.1 := by
  refine ⟨rfl, rfl, ?_⟩
  intro hEq
  rw [show (splitData [3, 0, 1, 53, 0, 0, 0]).2.2.length = 4 from rfl,
    show (splitData [3, 0, 1, 53, 0, 0, 0]).2.1 = 1 from rfl] at hEq
  exact absurd hEq (by omega)

/-- C5 amended: the decoder takes byte 0 as the type, bytes 1–2 as the
big-endian length field, and every remaining byte of the received chunk as
payload, regardless of the length field: the payload length is the chunk
length minus 3, and equals the length field exactly when the chunk holds
`3 + length` bytes (one complete frame).  A read yielding no data (empty
read, or connection reset) exits the loop rather than raising. -/
theorem split_consumes_whole_chunk (d : List Byte) (h : 3 ≤ d.length) :
    (splitData d).2.2.length = d.length - 3
    ∧ ((splitData d).2.2.length = (splitData d).2.1
        ↔ d.length = 3 + (splitData d).2.1)
    ∧ processStep none = StepResult.halt
    ∧ processStep (some []) = StepResult.halt := by
  have hn : ¬ d.length < 3 := by omega
  unfold splitData
  rw [if_neg hn]
  refine ⟨by simp, ?_, rfl, rfl⟩
  simp only [List.length_drop]
  omega

/-- Witness for C5 amended at the exact DTMF frame `[3, 0, 1, 53]`. -/
theorem split_consumes_whole_chunk_witness :
    (splitData [3, 0, 1, 53]).2.2.length = [3, 0, 1, 53].length - 3
    ∧ ((splitData [3, 0, 1, 53]).2.2.length = (splitData [3, 0, 1, 53]).2.1
        ↔ [3, 0, 1, 53].length = 3 + (splitData [3, 0, 1, 53]).2.1)
    ∧ processStep none = StepResult.halt
    ∧ processStep (some []) = StepResult.halt :=
  split_consumes_whole_chunk [3, 0, 1, 53] (by norm_num)

/-- An event touching the outbound path of one session: an application
`write()` (no resampler active) or the receive loop processing one inbound
AUDIO frame. -/
inductive SessionOp where
  | write (data : List Byte)
  | recvAudio (payload : List Byte)
  deriving DecidableEq, Repr

/-- The session state the outbound path touches: transmit state, inbound
queue, and the raw frames already written to the socket (oldest first). -/
structure SessionState where
  tx : TxState
  rx : List (List Byte)
  sent : List (List Byte)
  deriving DecidableEq, Repr

/-- Session state right after `__create__`. -/
def sessionInit : SessionState := ⟨txInit, [], []⟩

/-- The AUDIO branch of `_process`: drop-oldest admission to `_rx_q`, then —
if `_tx_q` is empty — send `types.audio + PCM_SIZE + bytes(320)` as
keep-alive, else dequeue one chunk, truncate it to 320 bytes if larger, and
send `types.audio + len(chunk).to_bytes(2,'big') + chunk`. -/
def audioBranch (st : SessionState) (payload : List Byte) : SessionState :=
  match st.tx.queue with
  | [] =>
    { st with rx := rxEnqueue st.rx payload,
              sent := st.sent
                ++ [typeAudio :: (pcmSizeBytes ++ List.replicate 320 0)] }
  | a :: rest =>
    let a2 := if 320 < a.length then a.take 320 else a
    { tx := { st.tx with queue := rest },
      rx := rxEnqueue st.rx payload,
      sent := st.sent ++ [typeAudio :: (toBytes2BE a2.length ++ a2)] }

/-- Interleave application writes with receive-loop AUDIO processing. -/
def sessionStep (st : SessionState) : SessionOp → SessionState
  | .write d => { st with tx := writeToTxQueue st.tx d }
  | .recvAudio p => audioBranch st p

/-- Run a session over a sequence of events. -/
def sessionRun (st : SessionState) (ops : List SessionOp) : SessionState :=
  ops.foldl sessionStep st

theorem sessionRun_frames (ops : List SessionOp) (st : SessionState)
    (hq : ∀ c ∈ st.tx.queue, c.length = 320)
    (hs : ∀ f ∈ st.sent, ∃ p, p.length = 320
      ∧ f = typeAudio :: (toBytes2BE p.length ++ p)) :
    (∀ c ∈ (sessionRun st ops).tx.queue, c.length = 320)
    ∧ ∀ f ∈ (sessionRun st ops).sent, ∃ p, p.length = 320
      ∧ f = typeAudio :: (toBytes2BE p.length ++ p) := by
  induction ops generalizing st with
  | nil => exact ⟨hq, hs⟩
  | cons op ops ih =>
    have e : sessionRun st (op :: ops) = sessionRun (sessionStep st op) ops := rfl
    rw [e]
    refine ih (sessionStep st op) ?_ ?_
    · cases op with
      | write d =>
        intro c hc
        rcases (writeToTxQueue_spec st.tx d).2.2 c hc with hc' | hc'
        · exact hq c hc'
        · exact hc'
      | recvAudio p =>
        show ∀ c ∈ (audioBranch st p).tx.queue, c.length = 320
        unfold audioBranch
        cases hque : st.tx.queue with
        | nil => simpa [hque] using hq
        | cons a rest =>
          intro c hc
          simp only at hc
          exact hq c (by rw [hque]; exact List.mem_cons_of_mem a hc)
    · cases op with
      | write d => exact hs
      | recvAudio p =>
        show ∀ f ∈ (audioBranch st p).sent, _
        unfold audioBranch
        cases hque : st.tx.queue with
        | nil =>
          intro f hf
          rcases List.mem_append.mp hf with hf' | hf'
          · exact hs f hf'
          · rcases List.mem_singleton.mp hf' with rfl
            refine ⟨List.replicate 320 0, by simp, ?_⟩
            simp [pcmSizeBytes]
        | cons a rest =>
          intro f hf
          simp only at hf
          rcases List.mem_append.mp hf with hf' | hf'
          · exact hs f hf'
          · rcases List.mem_singleton.mp hf' with rfl
            have ha : a.length = 320 := hq a (by rw [hque]; exact List.mem_cons_self a rest)
            have ht : (if 320 < a.length then a.take 320 else a) = a := by
              rw [if_neg (by omega)]
            refine ⟨a, ha, ?_⟩
            rw [ht]

/-- C6: every AUDIO frame the session writes toward the PBX — over any
interleaving of `write()` calls and receive-loop AUDIO steps from a fresh
session — is `0x10`, a big-endian length header equal to the payload
length, and a payload of exactly 320 bytes (the keep-alive being 320 bytes
of silence); and `_tx_q` only ever holds 320-byte chunks, so the
truncate-if-larger branch never changes a frame. -/
theorem outbound_audio_320 (ops : List SessionOp) :
    (∀ c ∈ (sessionRun sessionInit ops).tx.queue, c.length = 320)
    ∧ ∀ f ∈ (sessionRun sessionInit ops).sent, ∃ p, p.length = 320
      ∧ f = typeAudio :: (toBytes2BE p.length ++ p) :=
  sessionRun_frames ops sessionInit (by simp [sessionInit, txInit])
    (by simp [sessionInit])

/-- Witness for C6: the keep-alive frame sent on an AUDIO step with an
empty outbound queue is an AUDIO frame with a 320-byte payload. -/
theorem outbound_audio_320_witness :
    ∃ p, p.length = 320
      ∧ typeAudio :: (pcmSizeBytes ++ List.replicate 320 0)
        = typeAudio :: (toBytes2BE p.length ++ p) := by
  have h := (outbound_audio_320 [SessionOp.recvAudio []]).2
    (typeAudio :: (pcmSizeBytes ++ List.replicate 320 0))
  exact h (by rw [show (sessionRun sessionInit [SessionOp.recvAudio []]).sent
    = [typeAudio :: (pcmSizeBytes ++ List.replicate 320 0)] from rfl]; simp)

/-- The application-facing error signals of `read`/`write`: `invalidState`
models `InvalidStateException`; `transport` would model a socket-level
exception escaping to the caller (none of the code paths produce one). -/
inductive RWErr where
  | invalidState
  | transport
  deriving DecidableEq, Repr

/-- Connection state visible to `read`, `write` and `close`. -/
structure ConnState where
  connected : Bool
  rx : List (List Byte)
  tx : TxState
  deriving DecidableEq, Repr

/-- Outcome of one `read()` call. -/
inductive ReadOutcome where
  | err (e : RWErr)
  | block
  | val (audio : List Byte) (rest : List (List Byte))
  deriving DecidableEq, Repr

/-- `read()` with no resampler active: raise `InvalidStateException` when
`connected` is false, else dequeue from `_rx_q`, suspending when empty. -/
def readConn (c : ConnState) : ReadOutcome :=
  if !c.connected then .err .invalidState
  else
    match c.rx with
    | [] => .block
    | a :: rest => .val a rest

/-- Outcome of one `write()` call. -/
inductive WriteOutcome where
  | err (e : RWErr)
  | ok (tx : TxState)
  deriving DecidableEq, Repr

/-- `write(data)` with no resampler active: raise `InvalidStateException`
when `connected` is false, else run `_write_to_tx_queue`. -/
def writeConn (c : ConnState) (data : List Byte) : WriteOutcome :=
  if !c.connected then .err .invalidState
  else .ok (writeToTxQueue c.tx data)

/-- The `finally` of `_process`: send hangup, close the socket, and set
`connected = False` — run on any loop exit, including a caught connection
reset or an empty read; no exception reaches the application. -/
def processTeardown (c : ConnState) : ConnState := { c with connected := false }

/-- `close()`: return immediately when already disconnected; else bounded
drain of `_tx_q`, stop resampling, and cancel the receive task — whose
teardown sets `connected := false` before `close()` returns. -/
def closeConn (c : ConnState) : ConnState :=
  if !c.connected then c
  else processTeardown { c with tx := { queue := [], extra := c.tx.extra } }

/-- C7: `read()`/`write()` never surface a transport error (a reset is
caught inside the receive loop, which just exits and tears down, setting
`connected` to false); once `close()` has completed, `connected` is false
and every `read()`/`write()` raises `InvalidStateException` — distinct from
the blocking outcome on an empty queue. -/
theorem transport_errors_invisible (c : ConnState) (d : List Byte) :
    readConn c ≠ ReadOutcome.err RWErr.transport
    ∧ writeConn c d ≠ WriteOutcome.err RWErr.transport
    ∧ (closeConn c).connected = false
    ∧ readConn (closeConn c) = ReadOutcome.err RWErr.invalidState
    ∧ writeConn (closeConn c) d = WriteOutcome.err RWErr.invalidState
    ∧ (processTeardown c).connected = false
    ∧ processStep none = StepResult.halt := by
  have hclose : (closeConn c).connected = false := by
    unfold closeConn processTeardown
    cases hc : c.connected <;> simp [hc]
  refine ⟨?_, ?_, hclose, ?_, ?_, rfl, rfl⟩
  · unfold readConn
    cases hc : c.connected
    · simp [hc]
    · cases c.rx <;> simp [hc]
  · unfold writeConn
    cases hc : c.connected <;> simp [hc]
  · unfold readConn
    rw [hclose]
    rfl
  · unfold writeConn
    rw [hclose]
    rfl

/-- Witness for C7 at a connected state with an empty inbound queue. -/
theorem transport_errors_invisible_witness :
    readConn ⟨true, [], txInit⟩ ≠ ReadOutcome.err RWErr.transport
    ∧ writeConn ⟨true, [], txInit⟩ [1] ≠ WriteOutcome.err RWErr.transport
    ∧ (closeConn ⟨true, [], txInit⟩).connected = false
    ∧ readConn (closeConn ⟨true, [], txInit⟩)
      = ReadOutcome.err RWErr.invalidState
    ∧ writeConn (closeConn ⟨true, [], txInit⟩) [1]
      = WriteOutcome.err RWErr.invalidState
    ∧ (processTeardown ⟨true, [], txInit⟩).connected = false
    ∧ processStep none = StepResult.halt :=
  transport_errors_invisible ⟨true, [], txInit⟩ [1]

/-- Lowercase hexadecimal digit character. -/
def hexDigit (n : Nat) : Char :=
  if n < 10 then Char.ofNat (48 + n) else Char.ofNat (87 + n)

/-- The two hex characters of one byte. -/
def byteHexChars (b : Byte) : List Char :=
  [hexDigit (b / 16 % 16), hexDigit (b % 16)]

/-- `str(uuid.UUID(bytes=payload))`: 32 lowercase hex digits grouped
8-4-4-4-12 with hyphens. -/
def uuidStr (payload : List Byte) : String :=
  let hx := (payload.map byteHexChars).flatten
  String.mk (hx.take 8 ++ '-' :: ((hx.drop 8).take 4
    ++ '-' :: ((hx.drop 12).take 4
    ++ '-' :: ((hx.drop 16).take 4 ++ '-' :: hx.drop 20))))

/-- The `connections` dict of `AudiosocketAsync`, most recent entry first;
sessions are identified by reference (a `Nat` tag standing for object
identity). -/
abbrev Registry := List (String × Nat)

/-- Dict lookup `self.connections[stream_id]` / `stream_id in self.connections`. -/
def lookupReg (reg : Registry) (sid : String) : Option Nat :=
  (reg.find? (fun e => e.1 == sid)).map (fun e => e.2)

/-- `_listen_loop` registration: `self.connections[stream_id] = audconn`,
where the receive loop produced `stream_id = str(uuid.UUID(bytes=payload))`
from the 16-byte UUID frame. -/
def registerConn (reg : Registry) (payload : List Byte) (sess : Nat) : Registry :=
  (uuidStr payload, sess) :: reg

/-- `accept(stream_id)`: poll `connections`, sleeping 0.1 s between checks;
`fuel` bounds the number of polls observed, `none` meaning the call is
still waiting after that many polls. -/
def acceptPoll (reg : Registry) (sid : String) : Nat → Option Nat
  | 0 => none
  | fuel + 1 =>
    match lookupReg reg sid with
    | some s => some s
    | none => acceptPoll reg sid fuel

/-- C8: once the receive loop has registered a session under the string
form of its 16-byte UUID, `accept` on that id returns exactly the
registered session reference (not a copy); on an id that is never
registered, `accept` keeps polling — it returns nothing after any number
of polls, each separated by a sleep. -/
theorem accept_returns_registered (reg : Registry) (payload : List Byte)
    (sess : Nat) (sid : String) (fuel : Nat)
    (h : lookupReg reg sid = none) :
    acceptPoll (registerConn reg payload sess) (uuidStr payload) (fuel + 1)
      = some sess
    ∧ acceptPoll reg sid fuel = none := by
  constructor
  · unfold acceptPoll
    rw [show lookupReg (registerConn reg payload sess) (uuidStr payload)
        = some sess by unfold lookupReg registerConn; simp]
  · induction fuel with
    | zero => rfl
    | succ n ih =>
      unfold acceptPoll
      rw [h]
      exact ih

/-- Witness for C8 at a fresh registry, the all-zero UUID, and session
reference 7, with a never-registered id. -/
theorem accept_returns_registered_witness :
    acceptPoll (registerConn [] (List.replicate 16 0) 7)
      (uuidStr (List.replicate 16 0)) 3 = some 7
    ∧ acceptPoll [] "missing" 2 = none :=
  accept_returns_registered [] (List.replicate 16 0) 7 "missing" 2 rfl

/-- A Python value passed as `bind_port`: `None`, an `int`, or the decimal
string for `n` (as an environment variable would supply; always nonempty,
hence truthy even for `"0"`). -/
inductive PyPort where
  | none
  | int (n : Nat)
  | str (n : Nat)
  deriving DecidableEq, Repr

/-- Python truthiness of a `bind_port` value (`if not bind_port`). -/
def PyPort.truthy : PyPort → Bool
  | .none => false
  | .int n => decide (n ≠ 0)
  | .str _ => true

/-- `int(bind_port)` on the values above. -/
def PyPort.val : PyPort → Nat
  | .none => 0
  | .int n => n
  | .str n => n

/-- Result of `AudiosocketAsync.__create__`. -/
inductive CreateResult where
  | valueError (msg : String)
  | ok (addr : String) (port : Nat)
  deriving DecidableEq, Repr

/-- `AudiosocketAsync.__create__`: raise `ValueError` on a falsy
`bind_addr` or `bind_port`; otherwise bind and store
`self.port = self.initial_sock.getsockname()[1]` — the bound port when it
is nonzero, or the OS-assigned ephemeral port (modelled by the nonzero
parameter `ephemeral`) when binding to port 0. -/
def audiosocketCreate (bindAddr : Option String) (bindPort : PyPort)
    (ephemeral : Nat) : CreateResult :=
  match bindAddr with
  | .none => .valueError "No bind address specified for audiosocket."
  | .some addr =>
    if addr = "" then .valueError "No bind address specified for audiosocket."
    else if !bindPort.truthy then
      .valueError "No bind port specified for audiosocket."
    else
      .ok addr (if bindPort.val = 0 then ephemeral else bindPort.val)

/-- C9 counterexample: constructing the listener with an unspecified port —
`bind_port = None`, or the integer 0 — does not succeed with an ephemeral
port; the falsy-port guard raises
`ValueError("No bind port specified for audiosocket.")` before binding. -/
theorem create_unspecified_port_cex :
    audiosocketCreate (some "127.0.0.1") PyPort.none 50123
      = CreateResult.valueError "No bind port specified for audiosocket."
    ∧ audiosocketCreate (some "127.0.0.1") (PyPort.int 0) 50123
      = CreateResult.valueError "No bind port specified for audiosocket." :=
  ⟨rfl, rfl⟩

/-- C9 amended: a falsy `bind_port` (`None` or integer 0) raises
`ValueError`; the ephemeral-port path is reachable only by supplying the
nonempty string `"0"` (truthy, yet `int("0") = 0`), in which case
construction succeeds and the OS-assigned port is discoverable from the
listener's `port` attribute; any nonzero port is stored unchanged. -/
theorem create_port_behavior (addr : String) (eph n : Nat)
    (haddr : addr ≠ "") (hn : n ≠ 0) :
    audiosocketCreate (some addr) (PyPort.str 0) eph = CreateResult.ok addr eph
    ∧ audiosocketCreate (some addr) PyPort.none eph
      = CreateResult.valueError "No bind port specified for audiosocket."
    ∧ audiosocketCreate (some addr) (PyPort.int 0) eph
      = CreateResult.valueError "No bind port specified for audiosocket."
    ∧ audiosocketCreate (some addr) (PyPort.int n) eph
      = CreateResult.ok addr n := by
  simp [audiosocketCreate, PyPort.truthy, PyPort.val, haddr, hn]

/-- Witness for C9 amended at `addr = "0.0.0.0"`, ephemeral port 54321 and
explicit port 8080. -/
theorem create_port_behavior_witness :
    audiosocketCreate (some "0.0.0.0") (PyPort.str 0) 54321
      = CreateResult.ok "0.0.0.0" 54321
    ∧ audiosocketCreate (some "0.0.0.0") PyPort.none 54321
      = CreateResult.valueError "No bind port specified for audiosocket."
    ∧ audiosocketCreate (some "0.0.0.0") (PyPort.int 0) 54321
      = CreateResult.valueError "No bind port specified for audiosocket."
    ∧ audiosocketCreate (some "0.0.0.0") (PyPort.int 8080) 54321
      = CreateResult.ok "0.0.0.0" 8080 :=
  create_port_behavior "0.0.0.0" 54321 8080 (by simp) (by norm_num)

/-- `close()`'s `drain_send_queue` step: the receive loop consumes `_tx_q`
until it is empty.  The chunks transmitted during the drain are exactly the
queued ones; `_tx_extra_data` is never consulted.  Returns the transmitted
chunks and the post-drain state. -/
def closeDrain (st : TxState) : List (List Byte) × TxState :=
  (st.queue, { queue := [], extra := st.extra })

theorem writesToTx_small (ws : List (List Byte)) (st : TxState)
    (h : st.extra.length + ws.flatten.length < 320) :
    writesToTx st ws = ⟨st.queue, st.extra ++ ws.flatten⟩ := by
  induction ws generalizing st with
  | nil =>
    cases st
    simp [writesToTx]
  | cons d ds ih =>
    have hlen : (st.extra ++ d).length < 320 := by
      simp only [List.length_append]
      have := h
      simp only [List.flatten_cons, List.length_append] at this
      omega
    have e : writesToTx st (d :: ds) = writesToTx (writeToTxQueue st d) ds := rfl
    have hw : writeToTxQueue st d = ⟨st.queue, st.extra ++ d⟩ := by
      unfold writeToTxQueue
      rw [if_neg (by omega), if_pos hlen]
    rw [e, hw, ih]
    · simp [List.append_assoc]
    · simp only [List.flatten_cons, List.length_append] at h ⊢
      omega

/-- C10: with no resampling stage active, if the carried remainder plus the
bytes of a `write()` total under 320, nothing is enqueued and the bytes sit
in `_tx_extra_data`; from a fresh session, writes totalling under 320 bytes
leave `_tx_q` empty with everything in the carry; and the drain performed by
`close()` transmits only queued chunks, so such a final remainder is
discarded, never transmitted. -/
theorem small_write_remainder_discarded (st : TxState) (d : List Byte)
    (ws : List (List Byte))
    (h1 : st.extra.length + d.length < 320)
    (h2 : ws.flatten.length < 320) :
    (writeToTxQueue st d).queue = st.queue
    ∧ (writeToTxQueue st d).extra = st.extra ++ d
    ∧ (writesToTx txInit ws).queue = []
    ∧ (writesToTx txInit ws).extra = ws.flatten
    ∧ (closeDrain (writesToTx txInit ws)).1 = []
    ∧ (closeDrain (writesToTx txInit ws)).2.extra = ws.flatten := by
  have hw : writeToTxQueue st d = ⟨st.queue, st.extra ++ d⟩ := by
    unfold writeToTxQueue
    rw [if_neg (by simp only [List.length_append]; omega),
      if_pos (by simp only [List.length_append]; omega)]
  have hs : writesToTx txInit ws = ⟨[], ws.flatten⟩ := by
    rw [writesToTx_small ws txInit (by simpa [txInit] using h2)]
    simp [txInit]
  rw [hw, hs]
  exact ⟨rfl, rfl, rfl, rfl, rfl, rfl⟩

/-- Witness for C10 at one 3-byte write on a fresh connection. -/
theorem small_write_remainder_discarded_witness :
    (writeToTxQueue txInit [1, 2]).queue = txInit.queue
    ∧ (writeToTxQueue txInit [1, 2]).extra = txInit.extra ++ [1, 2]
    ∧ (writesToTx txInit [[5, 6, 7]]).queue = []
    ∧ (writesToTx txInit [[5, 6, 7]]).extra = [[5, 6, 7]].flatten
    ∧ (closeDrain (writesToTx txInit [[5, 6, 7]])).1 = []
    ∧ (closeDrain (writesToTx txInit [[5, 6, 7]])).2.extra
      = [[5, 6, 7]].flatten :=
  small_write_remainder_discarded txInit [1, 2] [[5, 6, 7]]
    (by norm_num [txInit]) (by norm_num)

end Asteramisk
